import Mathlib

/-!
Verification of the message-relay bot: the message store (`database.py`) and
the reply-routing logic (`bot.py`), embedded shallowly.

Conventions of the embedding:
* SQL `TIMESTAMP` values (`CURRENT_TIMESTAMP` strings, compared
  lexicographically by SQLite) are modelled as natural numbers; the fixed
  `YYYY-MM-DD HH:MM:SS` format is order-isomorphic to time.
* The `messages` table is a list of rows in insertion order; the
  `INTEGER PRIMARY KEY AUTOINCREMENT` id is the position at insertion time.
* `ORDER BY created_at DESC` under the index `idx_messages_user(user_id,
  created_at)` is realised by SQLite as a backward index scan; entries with
  equal `(user_id, created_at)` keys sit in the index in rowid order, so the
  scan is the reverse of a stable ascending sort by `created_at` of the
  rows in id order.  The embedding uses `List.insertionSort`, which is
  stable, composed with `List.reverse`.
-/

/-- The arguments of one `Database.add_message` call together with the value
the `created_at` column receives at insertion time (`CURRENT_TIMESTAMP`,
supplied here by the caller as a clock value).  This is also the content of a
stored row minus its autoincrement id. -/
structure AddEvent where
  user_id : Int
  username : Option String
  full_name : Option String
  direction : String
  message_type : String
  content : Option String
  file_id : Option String
  created_at : Nat
deriving DecidableEq

/-- A row of the `messages` table: an autoincrement `id` plus the inserted
columns. -/
structure Row where
  id : Nat
  user_id : Int
  username : Option String
  full_name : Option String
  direction : String
  message_type : String
  content : Option String
  file_id : Option String
  created_at : Nat
deriving DecidableEq

/-- The row created for insertion event `e` when the autoincrement counter
stands at `i`. -/
def mkRow (i : Nat) (e : AddEvent) : Row :=
  ⟨i, e.user_id, e.username, e.full_name, e.direction, e.message_type,
    e.content, e.file_id, e.created_at⟩

/-- A row with its id forgotten: the part of a row that `get_history` and
`list_clients` can depend on apart from tie-breaking. -/
def coreOf (r : Row) : AddEvent :=
  ⟨r.user_id, r.username, r.full_name, r.direction, r.message_type,
    r.content, r.file_id, r.created_at⟩

/-- The table obtained by replaying a list of insertion events with the
autoincrement counter starting at `i`. -/
def mkDbFrom (i : Nat) : List AddEvent → List Row
  | [] => []
  | e :: es => mkRow i e :: mkDbFrom (i + 1) es

/-- The table obtained by replaying a list of insertion events on an empty
database (ids `0, 1, 2, ...` in insertion order). -/
def mkDb (events : List AddEvent) : List Row :=
  mkDbFrom 0 events

/-- `Database.add_message`: the SQL `INSERT` appends one row, the
autoincrement id being larger than every existing id. -/
def add_message (db : List Row) (e : AddEvent) : List Row :=
  db ++ [mkRow db.length e]

/-- The rows of one user, in insertion order: `WHERE user_id = ?`. -/
def userRows (db : List Row) (uid : Int) : List Row :=
  db.filter (fun r => r.user_id == uid)

/-- Comparison by the `created_at` column only — the sort key of
`ORDER BY created_at`. -/
def tLe (a b : Row) : Prop := a.created_at ≤ b.created_at

instance : DecidableRel tLe := fun a b => Nat.decLe a.created_at b.created_at

instance : IsTotal Row tLe := ⟨fun a b => Nat.le_total a.created_at b.created_at⟩

instance : IsTrans Row tLe := ⟨fun _ _ _ h h' => Nat.le_trans h h'⟩

/-- Same comparison on id-less rows. -/
def tLeE (a b : AddEvent) : Prop := a.created_at ≤ b.created_at

instance : DecidableRel tLeE := fun a b => Nat.decLe a.created_at b.created_at

/-- The `(created_at, id)` lexicographic order: timestamp first, ties broken
by the autoincrement id.  This is the order in which a backward scan of
`idx_messages_user` visits a user's rows, reversed. -/
def lexLe (a b : Row) : Prop :=
  a.created_at < b.created_at ∨ (a.created_at = b.created_at ∧ a.id ≤ b.id)

/-- A user's rows in chronological order: stable ascending sort by
`created_at` of the rows in insertion order. -/
def chronAsc (db : List Row) (uid : Int) : List Row :=
  List.insertionSort tLe (userRows db uid)

/-- The `body` column of `get_history`: `COALESCE(content, file_id)` in SQL
followed by `row[2] or ""` in Python (`NULL` and the empty string both map
to `""`). -/
def histBody (r : Row) : String :=
  ((r.content).orElse (fun _ => r.file_id)).getD ""

/-- The tuple `(direction, message_type, body, created_at)` returned by
`Database.get_history` for one row. -/
def projRow (r : Row) : String × String × String × Nat :=
  (r.direction, r.message_type, histBody r, r.created_at)

/-- Same projection for an id-less row. -/
def projCore (e : AddEvent) : String × String × String × Nat :=
  (e.direction, e.message_type, ((e.content).orElse (fun _ => e.file_id)).getD "", e.created_at)

/-- `Database.get_history`: `SELECT ... WHERE user_id = ? ORDER BY
created_at DESC LIMIT ?`, realised as the reverse of the chronological
order, truncated, then reversed back by `rows.reverse()` in Python, and
projected to `(direction, message_type, body, created_at)` tuples. -/
def get_history (db : List Row) (uid : Int) (limit : Nat) :
    List (String × String × String × Nat) :=
  (((chronAsc db uid).reverse.take limit).reverse).map projRow

/-- The distinct user ids of the table — the `GROUP BY user_id` groups of the
`latest` CTE in `Database.list_clients` (group order determinised as first
appearance; the final result is re-sorted anyway). -/
def clientIds (db : List Row) : List Int :=
  (db.map (fun r => r.user_id)).dedup

/-- `MAX(created_at)` over one user's rows. -/
def lastMessage (db : List Row) (uid : Int) : Nat :=
  ((userRows db uid).map (fun r => r.created_at)).foldr max 0

/-- A user's rows most-recent-first: the order of a backward scan of
`idx_messages_user`, i.e. `ORDER BY created_at DESC` with ties in rowid
descending order. -/
def recentFirst (db : List Row) (uid : Int) : List Row :=
  (chronAsc db uid).reverse

/-- Truthiness of the SQL predicate `v IS NOT NULL AND v <> ''`. -/
def isPresent (v : Option String) : Bool := v.getD "" != ""

/-- One correlated subquery of `Database.list_clients`: the most recent
non-null, non-empty value of a text column (`username` via `m2`, `full_name`
via `m3`): `ORDER BY created_at DESC LIMIT 1` over the filtered rows. -/
def bestField (db : List Row) (uid : Int) (f : Row → Option String) : Option String :=
  ((recentFirst db uid).find? (fun r => isPresent (f r))).bind f

/-- One output row of `Database.list_clients`:
`(user_id, username, full_name, last_message)`. -/
def clientRow (db : List Row) (uid : Int) : Int × Option String × Option String × Nat :=
  (uid, bestField db uid (fun r => r.username),
    bestField db uid (fun r => r.full_name), lastMessage db uid)

/-- The sort relation of `ORDER BY latest.last_message DESC` (tie order among
equal `last_message` values is unspecified by SQL; determinised here by a
stable sort over the group order). -/
def lastGe (a b : Int × Option String × Option String × Nat) : Prop :=
  b.2.2.2 ≤ a.2.2.2

instance : DecidableRel lastGe := fun a b => Nat.decLe b.2.2.2 a.2.2.2

instance : IsTotal (Int × Option String × Option String × Nat) lastGe :=
  ⟨fun a b => (Nat.le_total b.2.2.2 a.2.2.2).imp id id⟩

instance : IsTrans (Int × Option String × Option String × Nat) lastGe :=
  ⟨fun _ _ _ h h' => Nat.le_trans h' h⟩

/-- `Database.list_clients`: one row per distinct user id, sorted by
last-message recency, descending. -/
def list_clients (db : List Row) : List (Int × Option String × Option String × Nat) :=
  List.insertionSort lastGe ((clientIds db).map (clientRow db))

/-- Definition following the words of the specification, for comparison with
`list_clients`: the most recent non-null value of a column, with no
requirement that it be non-empty. -/
def specBestField (db : List Row) (uid : Int) (f : Row → Option String) : Option String :=
  ((recentFirst db uid).find? (fun r => (f r).isSome)).bind f

/-- The SQL predicate `v IS NOT NULL AND v <> ''` as a proposition. -/
def PresentP (v : Option String) : Prop := v ≠ none ∧ v ≠ some ""

/-- Declarative reading of a roster display field: either no row of the user
has a non-null, non-empty value and the field is null, or the field carries
the value of a row that is latest, in `(created_at, id)` order, among the
rows with a non-null, non-empty value. -/
def IsLatestNonEmpty (rows : List Row) (f : Row → Option String) (v : Option String) : Prop :=
  (v = none ∧ ∀ r ∈ rows, ¬ PresentP (f r)) ∨
    (∃ r ∈ rows, PresentP (f r) ∧ v = f r ∧ ∀ r' ∈ rows, PresentP (f r') → lexLe r' r)

/-! ### Basic lemmas about the store embedding -/

theorem coreOf_mkRow (i : Nat) (e : AddEvent) : coreOf (mkRow i e) = e := rfl

theorem lexLe_refl (a : Row) : lexLe a a := Or.inr ⟨rfl, Nat.le_refl _⟩

/-- Forgetting ids, the rows of one user are exactly the insertion events of
that user, whatever the autoincrement counter started at. -/
theorem userRows_mkDbFrom_core (uid : Int) (events : List AddEvent) :
    ∀ i : Nat, (userRows (mkDbFrom i events) uid).map coreOf
      = events.filter (fun e => e.user_id == uid) := by
  induction events with
  | nil => intro i; rfl
  | cons e es ih =>
    intro i
    unfold mkDbFrom userRows
    by_cases h : e.user_id = uid
    · simp only [List.filter_cons]
      have hb : (mkRow i e).user_id == uid := by simp [mkRow, h]
      simp [hb, h, List.map_cons, coreOf_mkRow]
      exact ih (i + 1)
    · have hb : ((mkRow i e).user_id == uid) = false := by simp [mkRow, h]
      simp only [List.filter_cons, hb, beq_eq_false_iff_ne]
      simp [h]
      exact ih (i + 1)

theorem mkDbFrom_id_ge (events : List AddEvent) :
    ∀ i : Nat, ∀ r ∈ mkDbFrom i events, i ≤ r.id := by
  induction events with
  | nil => intro i r hr; cases hr
  | cons e es ih =>
    intro i r hr
    rcases List.mem_cons.1 hr with rfl | hr'
    · exact Nat.le_refl _
    · exact Nat.le_of_lt (Nat.lt_of_lt_of_le (Nat.lt_succ_self i) (ih (i + 1) r hr'))

theorem mkDbFrom_pairwise (events : List AddEvent) :
    ∀ i : Nat, (mkDbFrom i events).Pairwise (fun a b => a.id < b.id) := by
  induction events with
  | nil => intro i; exact List.Pairwise.nil
  | cons e es ih =>
    intro i
    refine List.Pairwise.cons ?_ (ih (i + 1))
    intro b hb
    exact Nat.lt_of_lt_of_le (Nat.lt_succ_self i) (mkDbFrom_id_ge es (i + 1) b hb)

theorem userRows_pairwise (events : List AddEvent) (uid : Int) :
    (userRows (mkDb events) uid).Pairwise (fun a b => a.id < b.id) :=
  List.Pairwise.sublist (List.filter_sublist _) (mkDbFrom_pairwise events 0)

/-- The generic last-`n` identity behind `LIMIT n` followed by
`rows.reverse()`. -/
theorem revTakeRev {α : Type} (l : List α) (n : Nat) :
    (l.reverse.take n).reverse = l.drop (l.length - n) := by
  rw [← List.rtake_eq_reverse_take_reverse]
  rfl

theorem foldr_max_ge {l : List Nat} {x : Nat} (h : x ∈ l) : x ≤ l.foldr max 0 := by
  induction l with
  | nil => cases h
  | cons a t ih =>
    rcases List.mem_cons.1 h with rfl | ht
    · exact Nat.le_max_left _ _
    · exact Nat.le_trans (ih ht) (Nat.le_max_right _ _)

theorem foldr_max_mem {l : List Nat} (h : l ≠ []) : l.foldr max 0 ∈ l := by
  induction l with
  | nil => exact absurd rfl h
  | cons a t ih =>
    by_cases ht : t = []
    · subst ht; simp
    · rcases Nat.le_total (t.foldr max 0) a with hle | hle
      · simp only [List.foldr_cons, Nat.max_eq_left hle]
        exact List.mem_cons_self _ _
      · simp only [List.foldr_cons, Nat.max_eq_right hle]
        exact List.mem_cons_of_mem _ (ih ht)

theorem present_iff (v : Option String) : isPresent v = true ↔ PresentP v := by
  cases v with
  | none => simp [isPresent, PresentP]
  | some s =>
    by_cases h : s = ""
    · subst h; simp [isPresent, PresentP]
    · simp [isPresent, PresentP, h]

/-! ### Stability: sorting by timestamp breaks ties by insertion id -/

theorem orderedInsert_lexSorted {a : Row} {l : List Row}
    (hs : l.Pairwise lexLe) (hid : ∀ b ∈ l, a.id < b.id) :
    (List.orderedInsert tLe a l).Pairwise lexLe := by
  induction l with
  | nil => simp [List.orderedInsert]
  | cons b t ih =>
    rcases List.pairwise_cons.1 hs with ⟨hb, ht⟩
    by_cases h : tLe a b
    · simp only [List.orderedInsert, if_pos h]
      refine List.pairwise_cons.2 ⟨?_, hs⟩
      intro c hc
      have hcid : a.id < c.id := hid c hc
      rcases List.mem_cons.1 hc with rfl | hct
      · rcases Nat.lt_or_ge a.created_at c.created_at with hlt | hge
        · exact Or.inl hlt
        · exact Or.inr ⟨Nat.le_antisymm h hge, Nat.le_of_lt hcid⟩
      · rcases hb c hct with hbc | ⟨hbc, _⟩
        · rcases Nat.lt_or_ge a.created_at c.created_at with hlt | hge
          · exact Or.inl hlt
          · exact absurd (Nat.lt_of_le_of_lt h hbc) (Nat.not_lt.2 hge)
        · rcases Nat.lt_or_ge a.created_at c.created_at with hlt | hge
          · exact Or.inl hlt
          · exact Or.inr ⟨Nat.le_antisymm (hbc ▸ h) hge, Nat.le_of_lt hcid⟩
    · simp only [List.orderedInsert, if_neg h]
      refine List.pairwise_cons.2
        ⟨?_, ih ht (fun b' hb' => hid b' (List.mem_cons_of_mem b hb'))⟩
      intro c hc
      rcases (List.mem_orderedInsert tLe).1 hc with rfl | hct
      · exact Or.inl (Nat.lt_of_not_le h)
      · exact hb c hct

theorem insertionSort_lexSorted {l : List Row}
    (h : l.Pairwise (fun a b => a.id < b.id)) :
    (List.insertionSort tLe l).Pairwise lexLe := by
  induction l with
  | nil => simp [List.insertionSort]
  | cons a t ih =>
    rcases List.pairwise_cons.1 h with ⟨ha, ht⟩
    simp only [List.insertionSort]
    refine orderedInsert_lexSorted (ih ht) ?_
    intro b hb
    exact ha b ((List.mem_insertionSort tLe).1 hb)

theorem chronAsc_sorted (events : List AddEvent) (uid : Int) :
    (chronAsc (mkDb events) uid).Pairwise lexLe :=
  insertionSort_lexSorted (userRows_pairwise events uid)

/-! ### The output of `get_history` only depends on the id-less rows -/

/-- `get_history` computed from id-less rows. -/
def coreHistory (cs : List AddEvent) (limit : Nat) : List (String × String × String × Nat) :=
  (((List.insertionSort tLeE cs).reverse.take limit).reverse).map projCore

theorem chronAsc_map_core (db : List Row) (uid : Int) :
    (chronAsc db uid).map coreOf = List.insertionSort tLeE ((userRows db uid).map coreOf) :=
  List.map_insertionSort tLe tLeE coreOf _ (fun _ _ _ _ => Iff.rfl)

theorem get_history_core (db : List Row) (uid : Int) (n : Nat) :
    get_history db uid n = coreHistory ((userRows db uid).map coreOf) n := by
  unfold get_history coreHistory
  rw [← chronAsc_map_core]
  rw [← List.map_reverse, ← List.map_take, ← List.map_reverse, List.map_map]
  rfl

theorem get_history_interleave (pre post : List AddEvent) (e : AddEvent) (uid : Int) (n : Nat)
    (h : e.user_id ≠ uid) :
    get_history (mkDb (pre ++ e :: post)) uid n = get_history (mkDb (pre ++ post)) uid n := by
  rw [get_history_core, get_history_core, mkDb, mkDb,
    userRows_mkDbFrom_core uid (pre ++ e :: post) 0,
    userRows_mkDbFrom_core uid (pre ++ post) 0]
  have he : (e.user_id == uid) = false := by simp [h]
  simp [List.filter_append, List.filter_cons, he]

/-! ### The first match of a descending scan is the latest match -/

theorem find?_desc_max {p : Row → Bool} :
    ∀ {l : List Row}, l.Pairwise (fun a b => lexLe b a) →
      ∀ {r0 : Row}, l.find? p = some r0 → ∀ b ∈ l, p b = true → lexLe b r0 := by
  intro l
  induction l with
  | nil => intro _ r0 hf; cases hf
  | cons a t ih =>
    intro hp r0 hf b hb hpb
    rcases List.pairwise_cons.1 hp with ⟨ha, ht⟩
    by_cases hpa : p a = true
    · rw [List.find?_cons_of_pos _ hpa] at hf
      cases hf
      rcases List.mem_cons.1 hb with rfl | hbt
      · exact lexLe_refl b
      · exact ha b hbt
    · rw [List.find?_cons_of_neg _ hpa] at hf
      rcases List.mem_cons.1 hb with rfl | hbt
      · exact absurd hpb hpa
      · exact ih ht hf b hbt hpb

theorem recentFirst_desc (events : List AddEvent) (uid : Int) :
    (recentFirst (mkDb events) uid).Pairwise (fun a b => lexLe b a) := by
  rw [recentFirst, List.pairwise_reverse]
  exact chronAsc_sorted events uid

theorem mem_recentFirst {r : Row} (db : List Row) (uid : Int) :
    r ∈ recentFirst db uid ↔ r ∈ userRows db uid := by
  rw [recentFirst, List.mem_reverse, chronAsc]
  exact (List.perm_insertionSort tLe _).mem_iff

/-- Each display field computed by a `list_clients` subquery is the value of
the latest row, in `(created_at, id)` order, carrying a non-null non-empty
value — or null when no such row exists. -/
theorem bestField_latest (events : List AddEvent) (uid : Int) (f : Row → Option String) :
    IsLatestNonEmpty (userRows (mkDb events) uid) f (bestField (mkDb events) uid f) := by
  unfold bestField
  cases hfind : (recentFirst (mkDb events) uid).find? (fun r => isPresent (f r)) with
  | none =>
    left
    refine ⟨rfl, ?_⟩
    intro r hr hpres
    have hnone := List.find?_eq_none.1 hfind r ((mem_recentFirst _ _).2 hr)
    exact hnone ((present_iff (f r)).2 hpres)
  | some r0 =>
    right
    have hp0 : isPresent (f r0) = true :=
      List.find?_some (p := fun r : Row => isPresent (f r)) hfind
    refine ⟨r0, (mem_recentFirst _ _).1 (List.mem_of_find?_eq_some hfind),
      (present_iff (f r0)).1 hp0, rfl, ?_⟩
    intro r' hr' hpres
    exact find?_desc_max (recentFirst_desc events uid) hfind r'
      ((mem_recentFirst _ _).2 hr') ((present_iff (f r')).2 hpres)

/-- Unpacking `IsLatestNonEmpty` into the two user-facing statements: the
field is null exactly when every recorded value is null or empty, and a
non-null field value is the value of the latest row with a non-null
non-empty value. -/
theorem latest_char {rows : List Row} {f : Row → Option String} {v : Option String}
    (h : IsLatestNonEmpty rows f v) :
    (v = none ↔ ∀ r ∈ rows, f r = none ∨ f r = some "")
    ∧ ∀ s : String, v = some s → s ≠ "" ∧
        ∃ r ∈ rows, f r = some s ∧ ∀ r' ∈ rows, PresentP (f r') → lexLe r' r := by
  rcases h with ⟨hv, hall⟩ | ⟨r, hr, hpres, hv, hmax⟩
  · subst hv
    constructor
    · constructor
      · intro _ r hr
        have := hall r hr
        unfold PresentP at this
        by_cases h1 : f r = none
        · exact Or.inl h1
        · by_cases h2 : f r = some ""
          · exact Or.inr h2
          · exact absurd ⟨h1, h2⟩ this
      · intro _; rfl
    · intro s hs; cases hs
  · constructor
    · constructor
      · intro hnone
        rw [hnone] at hv
        exact absurd hv.symm hpres.1
      · intro hall
        rcases hall r hr with h1 | h2
        · exact absurd h1 hpres.1
        · exact absurd h2 hpres.2
    · intro s hs
      rw [hs] at hv
      refine ⟨?_, r, hr, hv.symm, hmax⟩
      intro hse
      rw [hse] at hv
      exact hpres.2 hv.symm

/-! ### Appending a latest row sorts to the end -/

theorem orderedInsert_append_max {a x : Row} (hax : tLe a x) :
    ∀ s : List Row, List.orderedInsert tLe a (s ++ [x])
      = List.orderedInsert tLe a s ++ [x] := by
  intro s
  induction s with
  | nil => simp [List.orderedInsert, if_pos hax]
  | cons b s ih =>
    by_cases h : tLe a b
    · simp [List.orderedInsert, if_pos h]
    · simp only [List.cons_append, List.orderedInsert, if_neg h]
      exact congrArg (List.cons b) ih

theorem insertionSort_append_max {x : Row} :
    ∀ {l : List Row}, (∀ y ∈ l, tLe y x) →
      List.insertionSort tLe (l ++ [x]) = List.insertionSort tLe l ++ [x] := by
  intro l
  induction l with
  | nil => intro _; simp [List.insertionSort, List.orderedInsert]
  | cons a t ih =>
    intro h
    have hax : tLe a x := h a (List.mem_cons_self a t)
    have ht : ∀ y ∈ t, tLe y x := fun y hy => h y (List.mem_cons_of_mem a hy)
    have hstep : List.insertionSort tLe (a :: t ++ [x])
        = List.orderedInsert tLe a (List.insertionSort tLe (t ++ [x])) := rfl
    rw [hstep, ih ht]
    exact orderedInsert_append_max hax _

/-! ### Claim C6 -/

/-- C6: for every user id and limit `n`, `get_history` returns exactly the
last `n` entries (all of them when fewer exist) of that user's rows taken in
chronological order — timestamp order with ties broken by the monotonic
autoincrement id — and its output is unchanged when a message of another
user is interleaved anywhere in the insertion history. -/
theorem get_history_last_messages (events : List AddEvent) (uid : Int) (n : Nat) :
    get_history (mkDb events) uid n
        = ((chronAsc (mkDb events) uid).map projRow).drop
            ((userRows (mkDb events) uid).length - n)
      ∧ (get_history (mkDb events) uid n).length
          = min n (userRows (mkDb events) uid).length
      ∧ (chronAsc (mkDb events) uid).Perm (userRows (mkDb events) uid)
      ∧ (chronAsc (mkDb events) uid).Pairwise lexLe
      ∧ ∀ (pre post : List AddEvent) (e : AddEvent), events = pre ++ e :: post →
          e.user_id ≠ uid →
          get_history (mkDb events) uid n = get_history (mkDb (pre ++ post)) uid n := by
  have hlen : (chronAsc (mkDb events) uid).length = (userRows (mkDb events) uid).length :=
    (List.perm_insertionSort tLe _).length_eq
  refine ⟨?_, ?_, List.perm_insertionSort tLe _, chronAsc_sorted events uid, ?_⟩
  · unfold get_history
    rw [revTakeRev, ← hlen, List.map_drop]
  · unfold get_history
    rw [List.length_map, List.length_reverse, List.length_take, List.length_reverse, hlen]
  · intro pre post e hev hne
    subst hev
    exact get_history_interleave pre post e uid n hne

/-! ### Claim C7 -/

/-- C7 amended: after `add_message`, a sufficiently large `history` query
ends with the appended message, carrying its `direction`, its
`message_type` and a single `body` equal to `content` when non-null else
`file_id` else the empty string (the hypotheses: a positive limit, and the
append happening no earlier than the user's stored rows, as
`CURRENT_TIMESTAMP` guarantees). -/
theorem add_message_roundtrip (events : List AddEvent) (e : AddEvent) (n : Nat)
    (hn : 1 ≤ n)
    (ht : ∀ r ∈ userRows (mkDb events) e.user_id, r.created_at ≤ e.created_at) :
    (get_history (add_message (mkDb events) e) e.user_id n).getLast?
      = some (e.direction, e.message_type,
          ((e.content).orElse (fun _ => e.file_id)).getD "", e.created_at) := by
  set db := mkDb events with hdb
  set x := mkRow db.length e with hx
  have hur : userRows (db ++ [x]) e.user_id = userRows db e.user_id ++ [x] := by
    unfold userRows
    rw [List.filter_append]
    simp [hx, mkRow]
  have hchron : chronAsc (db ++ [x]) e.user_id = chronAsc db e.user_id ++ [x] := by
    unfold chronAsc
    rw [hur]
    refine insertionSort_append_max ?_
    intro y hy
    exact ht y hy
  obtain ⟨m, rfl⟩ : ∃ m, n = m + 1 := ⟨n - 1, by omega⟩
  unfold get_history add_message
  rw [hchron]
  rw [List.reverse_append]
  simp only [List.reverse_cons, List.reverse_nil, List.nil_append, List.singleton_append,
    List.take_succ_cons, List.reverse_cons, List.map_append, List.map_cons, List.map_nil]
  rw [List.getLast?_concat]
  rfl

/-! ### Claim C8 -/

/-- C8 amended: `list_clients` returns exactly one row per distinct user id,
ordered by the recency of that user's last message descending, where each
row's `username` (respectively `full_name`) is the most recent value that is
both non-null and non-empty, resolved independently (empty strings are
skipped like nulls), and `last_message` is the greatest `created_at` among
the user's rows. -/
theorem list_clients_roster (events : List AddEvent) :
    ((list_clients (mkDb events)).map (fun c => c.1)).Nodup
    ∧ (∀ uid : Int, (∃ c ∈ list_clients (mkDb events), c.1 = uid)
        ↔ ∃ r ∈ mkDb events, r.user_id = uid)
    ∧ (list_clients (mkDb events)).Pairwise (fun a b => b.2.2.2 ≤ a.2.2.2)
    ∧ ∀ c ∈ list_clients (mkDb events),
        IsLatestNonEmpty (userRows (mkDb events) c.1) (fun r => r.username) c.2.1
        ∧ IsLatestNonEmpty (userRows (mkDb events) c.1) (fun r => r.full_name) c.2.2.1
        ∧ (∀ r ∈ userRows (mkDb events) c.1, r.created_at ≤ c.2.2.2)
        ∧ ∃ r ∈ userRows (mkDb events) c.1, r.created_at = c.2.2.2 := by
  have hperm : (list_clients (mkDb events)).Perm
      ((clientIds (mkDb events)).map (clientRow (mkDb events))) :=
    List.perm_insertionSort lastGe _
  have hfst : ((list_clients (mkDb events)).map (fun c => c.1)).Perm
      (clientIds (mkDb events)) := by
    have h := hperm.map (fun c => c.1)
    rw [List.map_map] at h
    have hcomp : ((fun (c : Int × Option String × Option String × Nat) => c.1)
        ∘ clientRow (mkDb events)) = fun u => u := rfl
    rw [hcomp, List.map_id'] at h
    exact h
  refine ⟨?_, ?_, ?_, ?_⟩
  · exact hfst.nodup_iff.2 (List.nodup_dedup _)
  · intro uid
    have h1 : (∃ c ∈ list_clients (mkDb events), c.1 = uid)
        ↔ uid ∈ (list_clients (mkDb events)).map (fun c => c.1) := by
      constructor
      · rintro ⟨c, hc, rfl⟩
        exact List.mem_map_of_mem _ hc
      · intro h
        rcases List.mem_map.1 h with ⟨c, hc, h'⟩
        exact ⟨c, hc, h'⟩
    rw [h1, hfst.mem_iff, clientIds, List.mem_dedup, List.mem_map]
  · exact List.sorted_insertionSort lastGe _
  · intro c hc
    rcases List.mem_map.1 (hperm.subset hc) with ⟨uid, huid, rfl⟩
    have hattain : ∃ r ∈ userRows (mkDb events) uid, r.created_at = lastMessage (mkDb events) uid := by
      rcases List.mem_map.1 (List.mem_dedup.1 huid) with ⟨r0, hr0, hru⟩
      have hr0u : r0 ∈ userRows (mkDb events) uid :=
        List.mem_filter.2 ⟨hr0, beq_iff_eq.2 hru⟩
      have hmap : ((userRows (mkDb events) uid).map (fun r => r.created_at)) ≠ [] :=
        List.ne_nil_of_mem (List.mem_map_of_mem _ hr0u)
      rcases List.mem_map.1 (foldr_max_mem hmap) with ⟨r, hr, hrc⟩
      exact ⟨r, hr, hrc⟩
    exact ⟨bestField_latest events uid _, bestField_latest events uid _,
      fun r hr => foldr_max_ge (List.mem_map_of_mem _ hr), hattain⟩

/-! ### Claim C10 -/

/-- C10: `list_clients` treats the empty string like null when deriving the
roster display fields — a row's `username` (respectively `full_name`) is the
most recent value for that user that is both non-null and non-empty, and a
user all of whose recorded values are null or empty gets null for the
field. -/
theorem list_clients_empty_as_null (events : List AddEvent) :
    ∀ c ∈ list_clients (mkDb events),
      ((c.2.1 = none ↔ ∀ r ∈ userRows (mkDb events) c.1,
            r.username = none ∨ r.username = some "")
        ∧ ∀ s : String, c.2.1 = some s → s ≠ "" ∧
            ∃ r ∈ userRows (mkDb events) c.1, r.username = some s ∧
              ∀ r' ∈ userRows (mkDb events) c.1, PresentP r'.username → lexLe r' r)
      ∧ ((c.2.2.1 = none ↔ ∀ r ∈ userRows (mkDb events) c.1,
            r.full_name = none ∨ r.full_name = some "")
        ∧ ∀ s : String, c.2.2.1 = some s → s ≠ "" ∧
            ∃ r ∈ userRows (mkDb events) c.1, r.full_name = some s ∧
              ∀ r' ∈ userRows (mkDb events) c.1, PresentP r'.full_name → lexLe r' r) := by
  intro c hc
  have hperm : (list_clients (mkDb events)).Perm
      ((clientIds (mkDb events)).map (clientRow (mkDb events))) :=
    List.perm_insertionSort lastGe _
  rcases List.mem_map.1 (hperm.subset hc) with ⟨uid, _, rfl⟩
  exact ⟨latest_char (bestField_latest events uid _),
    latest_char (bestField_latest events uid _)⟩

/-! ### Concrete stores used by witnesses and counterexamples -/

/-- A message of user 7 carrying username `bob`, at time 1. -/
def evA : AddEvent := ⟨7, some "bob", none, "from_client", "text", some "x", none, 1⟩

/-- A later message of user 7 carrying the empty-string username, at time 2. -/
def evB : AddEvent := ⟨7, some "", none, "from_client", "text", some "y", none, 2⟩

/-- A message of a different user (id 8), at time 1. -/
def evOther : AddEvent := ⟨8, none, none, "from_client", "text", some "z", none, 1⟩

/-- A photo message of user 7 with caption `caption` and file id `f1`. -/
def evPhoto1 : AddEvent := ⟨7, none, none, "from_client", "photo", some "caption", some "f1", 3⟩

/-- The same photo message except for its file id `f2`. -/
def evPhoto2 : AddEvent := ⟨7, none, none, "from_client", "photo", some "caption", some "f2", 3⟩

/-- Witness for C6 at a concrete store: interleaving a message of user 8
does not change user 7's history. -/
theorem get_history_last_messages_witness :
    get_history (mkDb [evA, evOther, evB]) 7 2 = get_history (mkDb [evA, evB]) 7 2 :=
  (get_history_last_messages [evA, evOther, evB] 7 2).2.2.2.2 [evA] [evB] evOther rfl
    (by decide)

/-- C7 is false as stated: two stores whose appended photo messages differ
only in `media_reference` produce identical `history` output — the stored
`file_id` is collapsed into `COALESCE(content, file_id)` and is not returned
when `content` is non-null, so `history` does not return the appended
message's `media_reference`. -/
theorem history_roundtrip_counterexample :
    get_history (mkDb [evPhoto1]) 7 10 = get_history (mkDb [evPhoto2]) 7 10
    ∧ evPhoto1.file_id ≠ evPhoto2.file_id
    ∧ (get_history (mkDb [evPhoto1]) 7 10).map (fun q => q.2.2.1) = ["caption"] := by
  decide

/-- Witness for the amended C7 at a concrete store. -/
theorem add_message_roundtrip_witness :
    (get_history (add_message (mkDb [evA, evB]) evPhoto1) 7 5).getLast?
      = some ("from_client", "photo", "caption", 3) :=
  add_message_roundtrip [evA, evB] evPhoto1 5 (by decide) (by decide)

/-- C8 as stated is false: when a user's most recent username value is the
empty string, the claimed "most recent non-null username" is `some ""`,
while `list_clients` skips empty strings and reports the older
`some "bob"`. -/
theorem list_clients_nonnull_counterexample :
    list_clients (mkDb [evA, evB]) = [(7, some "bob", none, 2)]
    ∧ specBestField (mkDb [evA, evB]) 7 (fun r => r.username) = some ""
    ∧ specBestField (mkDb [evA, evB]) 7 (fun r => r.username) ≠ some "bob" := by
  decide

/-- Witness for the amended C8 at a concrete store. -/
theorem list_clients_roster_witness :
    IsLatestNonEmpty (userRows (mkDb [evA, evB]) 7) (fun r => r.username) (some "bob")
    ∧ IsLatestNonEmpty (userRows (mkDb [evA, evB]) 7) (fun r => r.full_name) none
    ∧ (∀ r ∈ userRows (mkDb [evA, evB]) 7, r.created_at ≤ 2)
    ∧ ∃ r ∈ userRows (mkDb [evA, evB]) 7, r.created_at = 2 :=
  (list_clients_roster [evA, evB]).2.2.2 (7, some "bob", none, 2) (by decide)

/-- Witness for C10 at a concrete store. -/
theorem list_clients_empty_as_null_witness :
    (((some "bob" : Option String) = none ↔ ∀ r ∈ userRows (mkDb [evA, evB]) 7,
          r.username = none ∨ r.username = some "")
      ∧ ∀ s : String, (some "bob" : Option String) = some s → s ≠ "" ∧
          ∃ r ∈ userRows (mkDb [evA, evB]) 7, r.username = some s ∧
            ∀ r' ∈ userRows (mkDb [evA, evB]) 7, PresentP r'.username → lexLe r' r)
    ∧ (((none : Option String) = none ↔ ∀ r ∈ userRows (mkDb [evA, evB]) 7,
          r.full_name = none ∨ r.full_name = some "")
      ∧ ∀ s : String, (none : Option String) = some s → s ≠ "" ∧
          ∃ r ∈ userRows (mkDb [evA, evB]) 7, r.full_name = some s ∧
            ∀ r' ∈ userRows (mkDb [evA, evB]) 7, PresentP r'.full_name → lexLe r' r) :=
  list_clients_empty_as_null [evA, evB] (7, some "bob", none, 2) (by decide)

/-! ## The router (bot.py) -/

/-- Bot configuration (`Settings` in bot.py). -/
structure Settings where
  token : String
  admin_chat_id : Int
  database_path : String
deriving DecidableEq

/-- The transport's view of a message author (`message.from_user`); handlers
return early when it is absent, so it is modelled as always present. -/
structure TgUser where
  id : Int
  username : Option String
  first_name : String
  last_name : Option String
deriving DecidableEq

/-- An incoming transport message: the fields bot.py reads.  `photo`,
`document`, `voice` and `video` carry the attachment's file id when the
attachment is present (`photo` that of the largest size, `photo[-1]`).
`reply_to` is the id of the message this one replies to, when any. -/
structure TransportMsg where
  chat_id : Int
  chat_type : String
  from_user : TgUser
  message_id : Nat
  text : Option String
  caption : Option String
  photo : Option String
  document : Option String
  voice : Option String
  video : Option String
  reply_to : Option Nat
deriving DecidableEq

/-- `" ".join(filter(None, [first_name, last_name])) or None` from
`get_user_info` (Python `filter(None, ...)` removes falsy values). -/
def full_name_of (u : TgUser) : Option String :=
  let joined := String.intercalate " "
    (([u.first_name, u.last_name.getD ""]).filter (fun s => s != ""))
  if joined = "" then none else some joined

/-- `get_user_display_name`: full name if truthy, else `@username` if
truthy, else the numeric id. -/
def get_user_display_name (user_id : Int) (username full_name : Option String) : String :=
  if full_name.getD "" ≠ "" then full_name.getD ""
  else if username.getD "" ≠ "" then "@" ++ username.getD ""
  else "ID: " ++ toString user_id

/-- Observable transport and storage effects of one handler run: `send` is a
successful `bot.send_message` (with its inline keyboard as label/callback
pairs), `answer` a `message.answer` in the handling chat, `copyTo` a
`message.copy_to`, `deleteMessage` a `bot.delete_message`, `dbAdd` a
`db.add_message` call, `cbAck`/`cbAlert` a `callback.answer`, and
`editMarkupCleared` an `edit_reply_markup(reply_markup=None)`.  The two
roster/history display commands only read the store and answer with
formatted text, abstracted as `showClients`/`showHistory`. -/
inductive Effect where
  | cbAck
  | cbAlert (text : String)
  | editMarkupCleared
  | send (chat : Int) (text : String) (buttons : List (String × String))
  | answer (text : String) (buttons : List (String × String))
  | copyTo (chat : Int)
  | deleteMessage (chat : Int) (mid : Nat)
  | dbAdd (e : AddEvent)
  | showClients
  | showHistory
deriving DecidableEq

/-- The mutable router state of bot.py: the module-level dict
`pending_replies` (admin chat id to prompt message id) and the global
`current_reply_user_id`. -/
structure BotState where
  pending_replies : List (Int × Nat)
  current_reply_user_id : Option Int
deriving DecidableEq

/-- Python dict assignment `d[k] = v` (an in-place update keeps the key's
position; a new key is appended). -/
def dictInsert (d : List (Int × Nat)) (k : Int) (v : Nat) : List (Int × Nat) :=
  if d.any (fun p => p.1 == k) then
    d.map (fun p => if p.1 == k then (k, v) else p)
  else d ++ [(k, v)]

/-- Python dict membership `k in d`. -/
def dictContains (d : List (Int × Nat)) (k : Int) : Bool :=
  d.any (fun p => p.1 == k)

/-- Python dict read `d[k]`, as an option (bot.py only reads after a
membership check). -/
def dictGet (d : List (Int × Nat)) (k : Int) : Option Nat :=
  (d.find? (fun p => p.1 == k)).map (fun p => p.2)

/-- Python `del d[k]`. -/
def dictErase (d : List (Int × Nat)) (k : Int) : List (Int × Nat) :=
  d.filter (fun p => p.1 != k)

/-- Python `str.split(":")` on a character list. -/
def splitColon : List Char → List (List Char)
  | [] => [[]]
  | c :: rest =>
    match splitColon rest with
    | [] => [[]]
    | g :: gs => if c = ':' then [] :: g :: gs else (c :: g) :: gs

/-- Decimal digit run to a number; `none` when empty or containing a
non-digit. -/
def digitsToNat (cs : List Char) : Option Nat :=
  if cs = [] then none
  else cs.foldl (fun acc c =>
    match acc with
    | none => none
    | some n => if c.isDigit then some (n * 10 + (c.toNat - 48)) else none) (some 0)

/-- Python `int(s)` on the canonical decimal strings this bot produces in
callback data (an optional minus sign and digits; Python's wider lexical
forms — surrounding whitespace, a plus sign, underscores — are never
produced by the f-strings building the data). -/
def pyInt (s : String) : Option Int :=
  match s.data with
  | '-' :: rest => (digitsToNat rest).map (fun n => -(n : Int))
  | cs => (digitsToNat cs).map (fun n => (n : Int))

/-- `int(callback.data.split(":")[1])`, with `IndexError`/`ValueError`
mapped to `none`. -/
def parseCbParam (data : String) : Option Int :=
  match (splitColon data.data).get? 1 with
  | none => none
  | some cs => pyInt (String.mk cs)

/-- The prompt `button_reply` sends to the admin chat. -/
def replyPromptText (uid : Int) : String :=
  "✍️ Ответ для клиента ID: " ++ toString uid
    ++ "\n\nНапишите следующее текстовое сообщение в этом чате, чтобы отправить его клиенту."

/-- The prompt `button_write` sends to the admin chat. -/
def writePromptText (uid : Int) : String :=
  "✍️ Напишите сообщение для клиента ID: " ++ toString uid
    ++ "\n\nСледующее текстовое сообщение в этом чате будет отправлено клиенту."

/-- The `reply:` callback handler `button_reply`: acknowledge, parse the user
id out of the callback data, clear the notification's keyboard, send a
prompt and record the pending reply.  `data` is `callback.data`, `hasMsg`
whether `callback.message` is present, `prompt_mid` the message id the
transport assigns to the prompt. -/
def button_reply (st : Settings) (s : BotState) (data : String) (hasMsg : Bool)
    (prompt_mid : Nat) : BotState × List Effect :=
  if data = "" then (s, [])
  else
    match parseCbParam data with
    | none => (s, [Effect.cbAck, Effect.cbAlert "❌ Ошибка: неверный ID пользователя"])
    | some uid =>
      (⟨dictInsert s.pending_replies st.admin_chat_id prompt_mid, some uid⟩,
        [Effect.cbAck]
          ++ (if hasMsg then [Effect.editMarkupCleared] else [])
          ++ [Effect.send st.admin_chat_id (replyPromptText uid) []])

/-- The `write:` callback handler `button_write`: same pending-state update
with a different prompt; its guard additionally requires `callback.message`,
and it does not clear the original keyboard. -/
def button_write (st : Settings) (s : BotState) (data : String) (hasMsg : Bool)
    (prompt_mid : Nat) : BotState × List Effect :=
  if data = "" ∨ hasMsg = false then (s, [])
  else
    match parseCbParam data with
    | none => (s, [Effect.cbAck, Effect.cbAlert "❌ Ошибка: неверный ID пользователя"])
    | some uid =>
      (⟨dictInsert s.pending_replies st.admin_chat_id prompt_mid, some uid⟩,
        [Effect.cbAck, Effect.send st.admin_chat_id (writePromptText uid) []])

/-- The admin text handler `handle_admin_message`.  The dispatcher only runs
it for non-command text messages in the admin chat (filters `is_admin_chat`,
`F.text`, `~F.text.startswith("/")`).  `now` is the clock value an insertion
receives; `sendErr` is `none` when `bot.send_message` to the client
succeeds, and `some e` when it raises an exception rendered as `e` — the
`except` block then reports the failure and leaves every piece of state
untouched.  The message's `reply_to` field is never read: bot.py keeps no
notification-record map.  (The final catch-all arm mirrors the guard: it is
unreachable because the guard established both values.) -/
def handle_admin_message (st : Settings) (s : BotState) (m : TransportMsg)
    (now : Nat) (sendErr : Option String) : BotState × List Effect :=
  if dictContains s.pending_replies st.admin_chat_id = false
      ∨ s.current_reply_user_id = none then
    (s, [])
  else
    match s.current_reply_user_id, dictGet s.pending_replies st.admin_chat_id with
    | some uid, some prompt_id =>
      if m.text.getD "" = "" then
        (s, [Effect.answer "❌ Ответ должен содержать текст" []])
      else
        match sendErr with
        | some e =>
          (s, [Effect.answer ("❌ Ошибка отправки сообщения: " ++ e) []])
        | none =>
          (⟨dictErase s.pending_replies st.admin_chat_id, none⟩,
            [Effect.send uid (m.text.getD "") [],
              Effect.dbAdd ⟨uid, none, none, "from_admin", "text",
                some (m.text.getD ""), none, now⟩,
              Effect.deleteMessage st.admin_chat_id prompt_id,
              Effect.answer ("✅ Сообщение отправлено клиенту " ++ toString uid) []])
    | _, _ => (s, [])

/-- The message-kind, text-content and file-id extraction of
`handle_client_message`: Python truthiness checks `if message.text: ...
elif message.photo: ...`.  Note the `voice` branch stores `content = None`
even though the transport delivers captions for voice messages too. -/
def classifyContent (m : TransportMsg) : Option String × String × Option String :=
  if m.text.getD "" ≠ "" then (m.text, "text", none)
  else if m.photo.isSome then (m.caption, "photo", m.photo)
  else if m.document.isSome then (m.caption, "document", m.document)
  else if m.voice.isSome then (none, "voice", m.voice)
  else if m.video.isSome then (m.caption, "video", m.video)
  else (none, "unknown", none)

/-- The client content handler `handle_client_message`: store the message,
then notify the admin with Reply/History buttons — a single combined
notification for text, or a header notification followed by a best-effort
copy of the original for media.  The router state is never touched. -/
def handle_client_message (st : Settings) (m : TransportMsg) (now : Nat) : List Effect :=
  let uid := m.from_user.id
  let username := m.from_user.username
  let fname := full_name_of m.from_user
  let cmf := classifyContent m
  let display := get_user_display_name uid username fname
  let kb := [("✉️ Ответить", "reply:" ++ toString uid),
    ("📜 История", "history:" ++ toString uid)]
  Effect.dbAdd ⟨uid, username, fname, "from_client", cmf.2.1, cmf.1, cmf.2.2, now⟩
    :: (if cmf.2.1 = "text" then
          [Effect.send st.admin_chat_id
            ("💬 Сообщение от " ++ display ++ "\nID: " ++ toString uid
              ++ "\n\n" ++ (cmf.1).getD "") kb]
        else
          [Effect.send st.admin_chat_id
            ("💬 Сообщение от " ++ display ++ "\nID: " ++ toString uid
              ++ "\nТип: " ++ cmf.2.1) kb,
            Effect.copyTo st.admin_chat_id])

/-- The `/start` handler `start_command`: a menu for the admin chat; for a
client, a stored `/start` command, a greeting, and an admin notification. -/
def start_command (st : Settings) (m : TransportMsg) (now : Nat) : List Effect :=
  let uid := m.from_user.id
  let username := m.from_user.username
  let fname := full_name_of m.from_user
  if m.chat_id = st.admin_chat_id then
    [Effect.answer ("👋 Привет, Админ!\n\nДоступные команды:\n/clients - Список клиентов\n/history <user_id> - История с клиентом\n\nИли используйте меню ниже:")
      [("👥 Все клиенты", "clients_list")]]
  else
    [Effect.dbAdd ⟨uid, username, fname, "from_client", "command", some "/start", none, now⟩,
      Effect.answer ("👋 Здравствуйте!\n\nЯ бот для связи с поддержкой. Напишите ваш вопрос, и я передам его оператору. Скоро вам ответят!") [],
      Effect.send st.admin_chat_id
        ("🆕 Новый пользователь: " ++ get_user_display_name uid username fname
          ++ " (ID: " ++ toString uid ++ ")\nОтправил команду /start") []]

/-- First whitespace-separated token of the message text — what aiogram's
`Command` filter matches the command against (bot-mention suffixes are not
modelled). -/
def firstWord (s : String) : String :=
  String.mk (s.data.takeWhile (fun c => c ≠ ' '))

/-- `F.text.startswith("/")` — false when there is no text (a missing
attribute fails the magic filter). -/
def startsSlash (m : TransportMsg) : Bool :=
  match m.text with
  | some t =>
    match t.data with
    | c :: _ => c = '/'
    | [] => false
  | none => false

/-- Truthiness of `message.text` (`F.text`): present and non-empty. -/
def textTruthy (m : TransportMsg) : Bool := m.text.getD "" != ""

/-- The five message handlers of bot.py, in registration order. -/
inductive HandlerId where
  | startCmd
  | clientMsg
  | adminMsg
  | clientsCmd
  | historyCmd
deriving DecidableEq

/-- The dispatcher: aiogram tries message handlers in registration order and
runs the first whose filters all pass — `start_command` (`CommandStart()`),
`handle_client_message` (`chat.type == "private"`, not a slash command, not
the admin chat), `handle_admin_message` (admin chat, has text, not a slash
command), then `clients_command` and `history_command` (`Command(...)` with
`is_admin_chat`).  `none`: no handler matches and the update is dropped. -/
def matchHandler (st : Settings) (m : TransportMsg) : Option HandlerId :=
  if textTruthy m = true ∧ firstWord (m.text.getD "") = "/start" then
    some HandlerId.startCmd
  else if m.chat_type = "private" ∧ startsSlash m = false
      ∧ ¬ m.chat_id = st.admin_chat_id then
    some HandlerId.clientMsg
  else if m.chat_id = st.admin_chat_id ∧ textTruthy m = true
      ∧ startsSlash m = false then
    some HandlerId.adminMsg
  else if m.chat_id = st.admin_chat_id ∧ textTruthy m = true
      ∧ firstWord (m.text.getD "") = "/clients" then
    some HandlerId.clientsCmd
  else if m.chat_id = st.admin_chat_id ∧ textTruthy m = true
      ∧ firstWord (m.text.getD "") = "/history" then
    some HandlerId.historyCmd
  else none

/-- One message-update dispatch: run the first matching handler.
`clients_command` and `history_command` read the store and answer with
display text only (abstracted); they never touch the router state. -/
def dispatchMessage (st : Settings) (s : BotState) (m : TransportMsg) (now : Nat)
    (sendErr : Option String) : BotState × List Effect :=
  match matchHandler st m with
  | some HandlerId.startCmd => (s, start_command st m now)
  | some HandlerId.clientMsg => (s, handle_client_message st m now)
  | some HandlerId.adminMsg => handle_admin_message st s m now sendErr
  | some HandlerId.clientsCmd => (s, [Effect.showClients])
  | some HandlerId.historyCmd => (s, [Effect.showHistory])
  | none => (s, [])

/-- Definition following the specification's words, for comparison: the kind
priority photo, document, voice, video, else text, else unknown. -/
def specKind (m : TransportMsg) : String :=
  if m.photo.isSome then "photo"
  else if m.document.isSome then "document"
  else if m.voice.isSome then "voice"
  else if m.video.isSome then "video"
  else if m.text.getD "" ≠ "" then "text"
  else "unknown"

/-- Definition following the specification's words, for comparison: the text
content is extracted from the text field or the media caption. -/
def specContent (m : TransportMsg) : Option String :=
  if m.text.getD "" ≠ "" then m.text else m.caption

/-- Definition following the specification's words, for comparison: resolve
the reply target via `NotificationRecord[reply_to_id]` in preference to the
session-wide pending target when both exist. -/
def specResolveTarget (notif : List (Nat × Int)) (pending : Option Int)
    (reply_to : Option Nat) : Option Int :=
  match reply_to with
  | some mid =>
    match (notif.find? (fun p => p.1 == mid)).map (fun p => p.2) with
    | some uid => some uid
    | none => pending
  | none => pending

/-- The successful sends of an effect list, as `(chat, text)` pairs. -/
def sends (es : List Effect) : List (Int × String) :=
  es.filterMap (fun e => match e with
    | Effect.send c t _ => some (c, t)
    | _ => none)

/-- The `from_admin` rows appended to the store by an effect list. -/
def opAppends (es : List Effect) : List AddEvent :=
  es.filterMap (fun e => match e with
    | Effect.dbAdd a => if a.direction = "from_admin" then some a else none
    | _ => none)

/-- All store appends of an effect list. -/
def dbAdds (es : List Effect) : List AddEvent :=
  es.filterMap (fun e => match e with
    | Effect.dbAdd a => some a
    | _ => none)

/-- The condition under which `handle_admin_message` forwards: the admin
chat has a recorded prompt and a current reply target. -/
def pendingPresent (st : Settings) (s : BotState) : Prop :=
  dictContains s.pending_replies st.admin_chat_id = true
    ∧ s.current_reply_user_id ≠ none

instance (st : Settings) (s : BotState) : Decidable (pendingPresent st s) := by
  unfold pendingPresent
  infer_instance

/-- Either of the two pending-reply-creating actions (the spec's Reply and
Write buttons set the same state). -/
inductive ReplyAction where
  | reply
  | write
deriving DecidableEq

/-- Run the chosen action's handler. -/
def runAction : ReplyAction → Settings → BotState → String → Bool → Nat →
    BotState × List Effect
  | ReplyAction.reply => button_reply
  | ReplyAction.write => button_write

/-! ### Dictionary lemmas -/

theorem dictGet_cons_of_eq {p : Int × Nat} {tl : List (Int × Nat)} {k : Int}
    (hp : (p.1 == k) = true) : dictGet (p :: tl) k = some p.2 := by
  unfold dictGet
  rw [List.find?_cons_of_pos (p := fun q => q.1 == k) tl hp]
  rfl

theorem dictGet_cons_of_ne {p : Int × Nat} {tl : List (Int × Nat)} {k : Int}
    (hp : (p.1 == k) = false) : dictGet (p :: tl) k = dictGet tl k := by
  unfold dictGet
  rw [List.find?_cons_of_neg _ (by simp [hp])]

theorem dictGet_insert (d : List (Int × Nat)) (k : Int) (v : Nat) :
    dictGet (dictInsert d k v) k = some v := by
  induction d with
  | nil => simp [dictInsert, dictGet]
  | cons p tl ih =>
    cases hp : (p.1 == k) with
    | true =>
      have hany : ((p :: tl).any fun q => q.1 == k) = true := by
        simp [List.any_cons, hp]
      have h1 : dictInsert (p :: tl) k v
          = (k, v) :: tl.map (fun q => if q.1 == k then (k, v) else q) := by
        unfold dictInsert
        rw [hany]
        simp only [if_true, List.map_cons, hp]
      rw [h1, dictGet_cons_of_eq (by simp)]
    | false =>
      cases htl : (tl.any fun q => q.1 == k) with
      | true =>
        have hany : ((p :: tl).any fun q => q.1 == k) = true := by
          simp [List.any_cons, htl]
        have h1 : dictInsert (p :: tl) k v
            = p :: tl.map (fun q => if q.1 == k then (k, v) else q) := by
          unfold dictInsert
          rw [hany]
          simp [hp]
          intro hk
          exact absurd hk (by simpa using hp)
        have h2 : dictInsert tl k v
            = tl.map (fun q => if q.1 == k then (k, v) else q) := by
          unfold dictInsert
          rw [htl]
          simp
        rw [h1, dictGet_cons_of_ne hp, ← h2]
        exact ih
      | false =>
        have hany : ((p :: tl).any fun q => q.1 == k) = false := by
          simp [List.any_cons, hp, htl]
        have h1 : dictInsert (p :: tl) k v = p :: (tl ++ [(k, v)]) := by
          unfold dictInsert
          rw [hany]
          simp
        have h2 : dictInsert tl k v = tl ++ [(k, v)] := by
          unfold dictInsert
          rw [htl]
          simp
        rw [h1, dictGet_cons_of_ne hp, ← h2]
        exact ih

theorem dictContains_of_get {d : List (Int × Nat)} {k : Int} {v : Nat}
    (h : dictGet d k = some v) : dictContains d k = true := by
  unfold dictGet at h
  cases hf : d.find? (fun p => p.1 == k) with
  | none => rw [hf] at h; cases h
  | some p =>
    have hp := List.find?_some (p := fun q : Int × Nat => q.1 == k) hf
    have hm := List.mem_of_find?_eq_some hf
    exact List.any_eq_true.2 ⟨p, hm, hp⟩

theorem dictContains_insert (d : List (Int × Nat)) (k : Int) (v : Nat) :
    dictContains (dictInsert d k v) k = true :=
  dictContains_of_get (dictGet_insert d k v)

theorem dictContains_erase (d : List (Int × Nat)) (k : Int) :
    dictContains (dictErase d k) k = false := by
  unfold dictContains dictErase
  rw [Bool.eq_false_iff]
  intro h
  rcases List.any_eq_true.1 h with ⟨p, hm, hp⟩
  have := (List.mem_filter.1 hm).2
  rw [bne_iff_ne] at this
  exact this (by simpa using hp)

theorem dictGet_isSome_of_contains {d : List (Int × Nat)} {k : Int}
    (h : dictContains d k = true) : ∃ v, dictGet d k = some v := by
  rcases List.any_eq_true.1 h with ⟨p, hm, hp⟩
  cases hf : d.find? (fun q => q.1 == k) with
  | none => exact absurd ((List.find?_eq_none.1 hf) p hm) (by simp [hp])
  | some q =>
    refine ⟨q.2, ?_⟩
    unfold dictGet
    rw [hf]
    rfl

theorem textTruthy_ne {m : TransportMsg} (h : textTruthy m = true) :
    m.text.getD "" ≠ "" := by
  simpa [textTruthy, bne_iff_ne] using h

/-! ### Reduction lemmas for `handle_admin_message` -/

/-- With pending state present, text present, and a successful send, the
handler forwards once, records once, deletes the prompt, confirms, and
clears the state. -/
theorem handle_admin_success (st : Settings) (s : BotState) (m : TransportMsg)
    (now : Nat) (uid : Int) (pid : Nat)
    (hcur : s.current_reply_user_id = some uid)
    (hget : dictGet s.pending_replies st.admin_chat_id = some pid)
    (ht : m.text.getD "" ≠ "") :
    handle_admin_message st s m now none
      = (⟨dictErase s.pending_replies st.admin_chat_id, none⟩,
          [Effect.send uid (m.text.getD "") [],
            Effect.dbAdd ⟨uid, none, none, "from_admin", "text",
              some (m.text.getD ""), none, now⟩,
            Effect.deleteMessage st.admin_chat_id pid,
            Effect.answer ("✅ Сообщение отправлено клиенту " ++ toString uid) []]) := by
  have hcont := dictContains_of_get hget
  unfold handle_admin_message
  rw [if_neg (by rw [hcont, hcur]; simp)]
  rw [hcur, hget]
  simp only []
  rw [if_neg ht]

/-- With pending state present and text present, a failed send only reports
the failure: the state, including the pending target, is untouched and no
row is recorded. -/
theorem handle_admin_failure (st : Settings) (s : BotState) (m : TransportMsg)
    (now : Nat) (err : String) (uid : Int) (pid : Nat)
    (hcur : s.current_reply_user_id = some uid)
    (hget : dictGet s.pending_replies st.admin_chat_id = some pid)
    (ht : m.text.getD "" ≠ "") :
    handle_admin_message st s m now (some err)
      = (s, [Effect.answer ("❌ Ошибка отправки сообщения: " ++ err) []]) := by
  have hcont := dictContains_of_get hget
  unfold handle_admin_message
  rw [if_neg (by rw [hcont, hcur]; simp)]
  rw [hcur, hget]
  simp only []
  rw [if_neg ht]

/-- Either pending-reply-creating action, given parsable callback data,
overwrites the pending target unconditionally and emits no error alert. -/
theorem runAction_sets_target (a : ReplyAction) (st : Settings) (s : BotState)
    (d : String) (uid : Int) (pm : Nat)
    (hd : d ≠ "") (hp : parseCbParam d = some uid) :
    (runAction a st s d true pm).1
      = ⟨dictInsert s.pending_replies st.admin_chat_id pm, some uid⟩
    ∧ ∀ t, Effect.cbAlert t ∉ (runAction a st s d true pm).2 := by
  cases a with
  | reply =>
    simp only [runAction]
    unfold button_reply
    rw [if_neg hd, hp]
    refine ⟨rfl, ?_⟩
    intro t htm
    simp at htm
  | write =>
    simp only [runAction]
    unfold button_write
    rw [if_neg (by simp [hd]), hp]
    refine ⟨rfl, ?_⟩
    intro t htm
    simp at htm

/-! ### Claim C1 -/

/-- C1: last-action-wins.  Invoking Reply (or Write) for user `A` and then
for user `B` before any operator text leaves the pending state targeting
`B`; the second action is accepted (no error alert), and the next operator
text message is delivered to `B` and to no chat of `A`. -/
theorem reply_last_action_wins (st : Settings) (s : BotState) (a1 a2 : ReplyAction)
    (dA dB : String) (A B : Int) (p1 p2 : Nat) (m : TransportMsg) (now : Nat)
    (_hdA : dA ≠ "") (_hdB : dB ≠ "")
    (_hA : parseCbParam dA = some A) (hB : parseCbParam dB = some B)
    (hAB : A ≠ B) (ht : textTruthy m = true) :
    (runAction a2 st (runAction a1 st s dA true p1).1 dB true p2).1.current_reply_user_id
        = some B
    ∧ (∀ t, Effect.cbAlert t
        ∉ (runAction a2 st (runAction a1 st s dA true p1).1 dB true p2).2)
    ∧ sends (handle_admin_message st
          (runAction a2 st (runAction a1 st s dA true p1).1 dB true p2).1 m now none).2
        = [(B, m.text.getD "")]
    ∧ ∀ txt : String, (A, txt) ∉ sends (handle_admin_message st
          (runAction a2 st (runAction a1 st s dA true p1).1 dB true p2).1 m now none).2 := by
  obtain ⟨h2, halert⟩ :=
    runAction_sets_target a2 st (runAction a1 st s dA true p1).1 dB B p2 _hdB hB
  have hcur : (runAction a2 st (runAction a1 st s dA true p1).1 dB true p2).1.current_reply_user_id
      = some B := by rw [h2]
  have hget : dictGet (runAction a2 st (runAction a1 st s dA true p1).1 dB true p2).1.pending_replies
      st.admin_chat_id = some p2 := by
    rw [h2]
    exact dictGet_insert _ _ _
  have hsucc := handle_admin_success st
    (runAction a2 st (runAction a1 st s dA true p1).1 dB true p2).1 m now B p2
    hcur hget (textTruthy_ne ht)
  refine ⟨hcur, halert, ?_, ?_⟩
  · rw [hsucc]
    rfl
  · intro txt hmem
    rw [hsucc] at hmem
    simp [sends] at hmem
    exact hAB hmem.1

/-! ### Claim C2 -/

/-- C2: with pending state present (and the send succeeding), the
forward-to-user transition fires exactly once — one send to the pending
target, one `from_admin` row recorded, and the pending state cleared; with
no pending state and no reply-to reference, the handler does nothing: no
send, no record, state untouched. -/
theorem admin_forward_exactly_once (st : Settings) (s : BotState) (m : TransportMsg)
    (now : Nat) (ht : textTruthy m = true) :
    (pendingPresent st s →
      ∃ uid : Int, s.current_reply_user_id = some uid
        ∧ sends (handle_admin_message st s m now none).2 = [(uid, m.text.getD "")]
        ∧ (opAppends (handle_admin_message st s m now none).2).map
            (fun a => (a.user_id, a.direction, a.message_type, a.content))
            = [(uid, "from_admin", "text", some (m.text.getD ""))]
        ∧ dictContains (handle_admin_message st s m now none).1.pending_replies
            st.admin_chat_id = false
        ∧ (handle_admin_message st s m now none).1.current_reply_user_id = none)
    ∧ (m.reply_to = none → ¬ pendingPresent st s →
        handle_admin_message st s m now none = (s, [])) := by
  constructor
  · rintro ⟨hcont, hcne⟩
    obtain ⟨uid, hcur⟩ := Option.ne_none_iff_exists'.1 hcne
    obtain ⟨pid, hget⟩ := dictGet_isSome_of_contains hcont
    have hsucc := handle_admin_success st s m now uid pid hcur hget (textTruthy_ne ht)
    refine ⟨uid, hcur, ?_, ?_, ?_, ?_⟩
    · rw [hsucc]
      rfl
    · rw [hsucc]
      rfl
    · rw [hsucc]
      exact dictContains_erase _ _
    · rw [hsucc]
  · intro _ hnp
    have hcond : dictContains s.pending_replies st.admin_chat_id = false
        ∨ s.current_reply_user_id = none := by
      by_cases hc : dictContains s.pending_replies st.admin_chat_id = true
      · by_cases hn : s.current_reply_user_id = none
        · exact Or.inr hn
        · exact absurd ⟨hc, hn⟩ hnp
      · exact Or.inl (by simpa using hc)
    unfold handle_admin_message
    rw [if_pos hcond]

/-! ### Claim C3 -/

/-- C3: with pending state present, a failing send to the target user is
caught: the handler returns normally with a visible failure notice to the
operator, the pending state (including its target) is untouched so the same
text can be retried, and no `from_admin` row is recorded; retrying the same
text with a succeeding send then delivers it to the same pending target. -/
theorem admin_forward_failure_safe (st : Settings) (s : BotState) (m : TransportMsg)
    (now : Nat) (err : String) (uid : Int)
    (ht : textTruthy m = true)
    (hcur : s.current_reply_user_id = some uid)
    (hcont : dictContains s.pending_replies st.admin_chat_id = true) :
    (handle_admin_message st s m now (some err)).1 = s
    ∧ (handle_admin_message st s m now (some err)).2
        = [Effect.answer ("❌ Ошибка отправки сообщения: " ++ err) []]
    ∧ opAppends (handle_admin_message st s m now (some err)).2 = []
    ∧ sends (handle_admin_message st s m now (some err)).2 = []
    ∧ sends (handle_admin_message st s m now none).2 = [(uid, m.text.getD "")] := by
  obtain ⟨pid, hget⟩ := dictGet_isSome_of_contains hcont
  have hfail := handle_admin_failure st s m now err uid pid hcur hget (textTruthy_ne ht)
  have hsucc := handle_admin_success st s m now uid pid hcur hget (textTruthy_ne ht)
  refine ⟨by rw [hfail], by rw [hfail], ?_, ?_, ?_⟩
  · rw [hfail]
    rfl
  · rw [hfail]
    rfl
  · rw [hsucc]
    rfl

/-! ### Claim C4 -/

/-- C4 amended: a non-text message in the admin chat matches no registered
handler at all — `handle_admin_message` requires `F.text`, and the client
handler excludes the admin chat — so the state (the pending target
included) is left unchanged and nothing is forwarded, but no rejection
notice is produced either: the message is silently ignored. -/
theorem admin_nontext_ignored (st : Settings) (s : BotState) (m : TransportMsg)
    (now : Nat) (err : Option String)
    (hadm : m.chat_id = st.admin_chat_id) (htext : m.text = none) :
    matchHandler st m = none ∧ dispatchMessage st s m now err = (s, []) := by
  have h1 : textTruthy m = false := by simp [textTruthy, htext]
  have h2 : startsSlash m = false := by simp [startsSlash, htext]
  have hmh : matchHandler st m = none := by
    unfold matchHandler
    rw [if_neg (by simp [h1])]
    rw [if_neg (by simp [hadm])]
    rw [if_neg (by simp [h1])]
    rw [if_neg (by simp [h1])]
    rw [if_neg (by simp [h1])]
  refine ⟨hmh, ?_⟩
  unfold dispatchMessage
  rw [hmh]

/-! ### Claim C5 -/

/-- C5 amended: `handle_admin_message` never reads the reply-to reference —
bot.py keeps no notification-record map — so the target is always resolved
from the session-wide pending state, whatever the operator replied to. -/
theorem admin_reply_ignores_reply_to (st : Settings) (s : BotState) (m : TransportMsg)
    (now : Nat) (err : Option String) (r : Option Nat) (uid : Int)
    (hcur : s.current_reply_user_id = some uid)
    (hcont : dictContains s.pending_replies st.admin_chat_id = true)
    (ht : textTruthy m = true) :
    handle_admin_message st s { m with reply_to := r } now err
        = handle_admin_message st s m now err
    ∧ sends (handle_admin_message st s m now none).2 = [(uid, m.text.getD "")] := by
  obtain ⟨pid, hget⟩ := dictGet_isSome_of_contains hcont
  refine ⟨rfl, ?_⟩
  rw [handle_admin_success st s m now uid pid hcur hget (textTruthy_ne ht)]
  rfl

/-! ### Claim C9 -/

/-- `handle_client_message` appends exactly one row, built from the
classified kind, content and file id. -/
theorem dbAdds_client (st : Settings) (m : TransportMsg) (now : Nat) :
    dbAdds (handle_client_message st m now)
      = [⟨m.from_user.id, m.from_user.username, full_name_of m.from_user, "from_client",
          (classifyContent m).2.1, (classifyContent m).1, (classifyContent m).2.2, now⟩] := by
  unfold handle_client_message dbAdds
  by_cases h : (classifyContent m).2.1 = "text" <;> simp [h]

/-- The transport invariant: a Telegram message carries either text or an
attachment, never both — captions accompany attachments in the separate
`caption` field. -/
def TextMediaExclusive (m : TransportMsg) : Prop :=
  m.text.getD "" ≠ "" →
    m.photo = none ∧ m.document = none ∧ m.voice = none ∧ m.video = none

instance (m : TransportMsg) : Decidable (TextMediaExclusive m) := by
  unfold TextMediaExclusive
  infer_instance

/-- C9 amended: exactly one kind is chosen, by the priority order photo,
document, voice, video, else text, else unknown (for messages satisfying
the transport's text/attachment exclusivity); `text_content` is the text
field or the media caption — except for voice messages, stored with null
`text_content` even when a caption is present — and the stored row carries
exactly that kind and content; in particular a photo with a caption is
stored as kind `photo` with the caption as its content. -/
theorem client_kind_priority (st : Settings) (m : TransportMsg) (now : Nat)
    (hx : TextMediaExclusive m) :
    (classifyContent m).2.1 = specKind m
    ∧ (classifyContent m).1
        = (if specKind m = "text" then m.text
          else if specKind m = "voice" ∨ specKind m = "unknown" then none
          else m.caption)
    ∧ (dbAdds (handle_client_message st m now)).map
          (fun a => (a.message_type, a.content, a.file_id))
        = [(specKind m, (classifyContent m).1, (classifyContent m).2.2)]
    ∧ (m.photo.isSome = true → m.text.getD "" = "" →
        (classifyContent m).2.1 = "photo" ∧ (classifyContent m).1 = m.caption) := by
  have hdb := dbAdds_client st m now
  by_cases htxt : m.text.getD "" = ""
  · by_cases hph : m.photo.isSome = true
    · refine ⟨?_, ?_, ?_, ?_⟩ <;>
        simp [classifyContent, specKind, htxt, hph, hdb]
    · by_cases hdoc : m.document.isSome = true
      · refine ⟨?_, ?_, ?_, ?_⟩ <;>
          simp [classifyContent, specKind, htxt, hph, hdoc, hdb]
      · by_cases hvo : m.voice.isSome = true
        · refine ⟨?_, ?_, ?_, ?_⟩ <;>
            simp [classifyContent, specKind, htxt, hph, hdoc, hvo, hdb]
        · by_cases hvi : m.video.isSome = true
          · refine ⟨?_, ?_, ?_, ?_⟩ <;>
              simp [classifyContent, specKind, htxt, hph, hdoc, hvo, hvi, hdb]
          · refine ⟨?_, ?_, ?_, ?_⟩ <;>
              simp [classifyContent, specKind, htxt, hph, hdoc, hvo, hvi, hdb]
  · obtain ⟨hp0, hd0, hv0, hvd0⟩ := hx htxt
    refine ⟨?_, ?_, ?_, ?_⟩ <;>
      simp [classifyContent, specKind, htxt, hp0, hd0, hv0, hvd0, hdb]

/-! ### Concrete sessions used by witnesses and counterexamples -/

/-- A configuration whose operator chat id is 999. -/
def st0 : Settings := ⟨"token", 999, "data/bot.db"⟩

/-- The operator as a transport user. -/
def adminUser : TgUser := ⟨999, some "admin", "Admin", none⟩

/-- A client as a transport user. -/
def clientUser : TgUser := ⟨111, some "client", "Client", none⟩

/-- A photo (non-text) message from the operator chat. -/
def photoMsg : TransportMsg :=
  ⟨999, "private", adminUser, 50, none, some "pic", some "p1", none, none, none, none⟩

/-- An operator text message replying to notification message 5. -/
def helloMsg : TransportMsg :=
  ⟨999, "private", adminUser, 60, some "hello", none, none, none, none, none, some 5⟩

/-- A client voice message carrying a caption. -/
def voiceMsg : TransportMsg :=
  ⟨111, "private", clientUser, 70, none, some "привет", none, none, some "v1", none, none⟩

/-- A client photo message carrying a caption. -/
def photoCapMsg : TransportMsg :=
  ⟨111, "private", clientUser, 80, none, some "подпись", some "p2", none, none, none, none⟩

/-- A session with a pending reply targeting user 111 (prompt message 5). -/
def s111 : BotState := ⟨[(999, 5)], some 111⟩

/-- A session with a pending reply targeting user 222 (prompt message 7). -/
def s222 : BotState := ⟨[(999, 7)], some 222⟩

/-- A fresh session: no pending reply. -/
def s0 : BotState := ⟨[], none⟩

/-- Witness for C1: Reply for 111, then Write for 222, then "hello" — the
text goes to 222 and never to 111. -/
theorem reply_last_action_wins_witness :
    (runAction ReplyAction.write st0
        (runAction ReplyAction.reply st0 s0 "reply:111" true 5).1
        "write:222" true 6).1.current_reply_user_id = some 222
    ∧ (∀ t, Effect.cbAlert t ∉ (runAction ReplyAction.write st0
        (runAction ReplyAction.reply st0 s0 "reply:111" true 5).1 "write:222" true 6).2)
    ∧ sends (handle_admin_message st0
        (runAction ReplyAction.write st0
          (runAction ReplyAction.reply st0 s0 "reply:111" true 5).1 "write:222" true 6).1
        helloMsg 9 none).2 = [(222, "hello")]
    ∧ ∀ txt : String, (111, txt) ∉ sends (handle_admin_message st0
        (runAction ReplyAction.write st0
          (runAction ReplyAction.reply st0 s0 "reply:111" true 5).1 "write:222" true 6).1
        helloMsg 9 none).2 :=
  reply_last_action_wins st0 s0 ReplyAction.reply ReplyAction.write "reply:111" "write:222"
    111 222 5 6 helloMsg 9 (by decide) (by decide) (by decide) (by decide) (by decide)
    (by decide)

/-- Witness for C2 at a concrete pending session. -/
theorem admin_forward_exactly_once_witness :
    ∃ uid : Int, s111.current_reply_user_id = some uid
      ∧ sends (handle_admin_message st0 s111 helloMsg 9 none).2 = [(uid, "hello")]
      ∧ (opAppends (handle_admin_message st0 s111 helloMsg 9 none).2).map
          (fun a => (a.user_id, a.direction, a.message_type, a.content))
          = [(uid, "from_admin", "text", some "hello")]
      ∧ dictContains (handle_admin_message st0 s111 helloMsg 9 none).1.pending_replies
          st0.admin_chat_id = false
      ∧ (handle_admin_message st0 s111 helloMsg 9 none).1.current_reply_user_id = none :=
  (admin_forward_exactly_once st0 s111 helloMsg 9 (by decide)).1 (by decide)

/-- Witness for C3 at a concrete pending session and failing send. -/
theorem admin_forward_failure_safe_witness :
    (handle_admin_message st0 s111 helloMsg 9 (some "blocked")).1 = s111
    ∧ (handle_admin_message st0 s111 helloMsg 9 (some "blocked")).2
        = [Effect.answer ("❌ Ошибка отправки сообщения: " ++ "blocked") []]
    ∧ opAppends (handle_admin_message st0 s111 helloMsg 9 (some "blocked")).2 = []
    ∧ sends (handle_admin_message st0 s111 helloMsg 9 (some "blocked")).2 = []
    ∧ sends (handle_admin_message st0 s111 helloMsg 9 none).2 = [(111, "hello")] :=
  admin_forward_failure_safe st0 s111 helloMsg 9 "blocked" 111 (by decide) (by decide)
    (by decide)

/-- C4 is false as stated: a photo from the operator while user 111 is
pending matches no handler, so the state is unchanged and nothing is
forwarded — but the effect list is empty, so no rejection notice is
produced either, contradicting the claimed user-visible rejection. -/
theorem admin_nontext_counterexample :
    matchHandler st0 photoMsg = none
    ∧ dispatchMessage st0 s111 photoMsg 9 none = (s111, [])
    ∧ (dispatchMessage st0 s111 photoMsg 9 none).1.current_reply_user_id = some 111 := by
  decide

/-- Witness for the amended C4. -/
theorem admin_nontext_ignored_witness :
    matchHandler st0 photoMsg = none
    ∧ dispatchMessage st0 s111 photoMsg 9 none = (s111, []) :=
  admin_nontext_ignored st0 s111 photoMsg 9 none (by decide) (by decide)

/-- C5 is false as stated: the operator's text replies to notification 5,
which the specification's notification-record resolution maps to user 111,
yet with a pending reply for 222 the code delivers to 222 and sends nothing
to 111 — the reply-to reference is ignored. -/
theorem reply_to_counterexample :
    specResolveTarget [(5, 111)] (some 222) (some 5) = some 111
    ∧ helloMsg.reply_to = some 5
    ∧ sends (handle_admin_message st0 s222 helloMsg 9 none).2 = [(222, "hello")]
    ∧ ∀ p ∈ sends (handle_admin_message st0 s222 helloMsg 9 none).2, p.1 ≠ 111 := by
  decide

/-- Witness for the amended C5. -/
theorem admin_reply_ignores_reply_to_witness :
    handle_admin_message st0 s222 { helloMsg with reply_to := some 12 } 9 none
        = handle_admin_message st0 s222 helloMsg 9 none
    ∧ sends (handle_admin_message st0 s222 helloMsg 9 none).2 = [(222, "hello")] :=
  admin_reply_ignores_reply_to st0 s222 helloMsg 9 none (some 12) 222 (by decide)
    (by decide) (by decide)

/-- C9 is false as stated: a voice message with a caption is classified as
kind `voice` (as the priority order says), but the code stores null
`text_content` where the claim requires the caption. -/
theorem kind_content_counterexample :
    (classifyContent voiceMsg).2.1 = "voice"
    ∧ specKind voiceMsg = "voice"
    ∧ specContent voiceMsg = some "привет"
    ∧ (classifyContent voiceMsg).1 = none
    ∧ (dbAdds (handle_client_message st0 voiceMsg 9)).map
        (fun a => (a.message_type, a.content)) = [("voice", none)] := by
  decide

/-- Witness for the amended C9 at a photo-with-caption message. -/
theorem client_kind_priority_witness :
    (classifyContent photoCapMsg).2.1 = specKind photoCapMsg
    ∧ (classifyContent photoCapMsg).1
        = (if specKind photoCapMsg = "text" then photoCapMsg.text
          else if specKind photoCapMsg = "voice" ∨ specKind photoCapMsg = "unknown" then none
          else photoCapMsg.caption)
    ∧ (dbAdds (handle_client_message st0 photoCapMsg 9)).map
          (fun a => (a.message_type, a.content, a.file_id))
        = [(specKind photoCapMsg, (classifyContent photoCapMsg).1,
            (classifyContent photoCapMsg).2.2)]
    ∧ (photoCapMsg.photo.isSome = true → photoCapMsg.text.getD "" = "" →
        (classifyContent photoCapMsg).2.1 = "photo"
          ∧ (classifyContent photoCapMsg).1 = photoCapMsg.caption) :=
  client_kind_priority st0 photoCapMsg 9 (by decide)
